import Mathlib

/-!
Shallow embedding of the landslide-sensor map prototype
(`src/app/components/MapView.tsx`): the seed datasets, the
filter/derivation pipeline (filtered nodes, counts by risk, heat points,
map bounds), and the user-annotation handlers (notes, checkpoints,
danger flags, hand-drawn areas), together with theorems about them.

Machine numbers of the source (coordinates, weights, battery voltages)
are embedded as exact rationals; prompts, generated UUIDs and clock
reads are passed to the handlers as explicit parameters.
-/
namespace LandSlides

/-- Risk levels, in declaration order of the source:
`type Risk = "Info" | "Watch" | "Warning" | "Evacuate"`. -/
inductive Risk : Type
  | Info
  | Watch
  | Warning
  | Evacuate
deriving DecidableEq, Repr

/-- `type SensorType = "tilt" | "rain" | "geophone"`. -/
inductive SensorType : Type
  | tilt
  | rain
  | geophone
deriving DecidableEq, Repr

/-- `type SensorNode` of the source. -/
structure SensorNode : Type where
  id : String
  name : String
  lat : ℚ
  lng : ℚ
  types : List SensorType
  risk : Risk
  last_seen : String
  battery : ℚ
deriving DecidableEq, Repr

/-- One `{ lat, lng }` vertex of an area polygon. -/
structure Coord : Type where
  lat : ℚ
  lng : ℚ
deriving DecidableEq, Repr

/-- `type Area` of the source. -/
structure Area : Type where
  id : String
  name : String
  risk : Risk
  coords : List Coord
deriving DecidableEq, Repr

/-- `type Note` of the source (component-local type). -/
structure Note : Type where
  id : String
  lat : ℚ
  lng : ℚ
  text : String
  ts : Int
deriving DecidableEq, Repr

/-- The seed sensor dataset `const NODES : SensorNode[]`. -/
def NODES : List SensorNode :=
  [ { id := "U1", name := "Uttarkashi — Town North", lat := 30.728, lng := 78.443,
      types := [.tilt, .rain], risk := .Watch, last_seen := "2025-10-24 12:15", battery := 3.9 },
    { id := "U2", name := "Gangori Slope", lat := 30.715, lng := 78.433,
      types := [.tilt, .geophone], risk := .Warning, last_seen := "2025-10-24 12:14", battery := 3.7 },
    { id := "U3", name := "Netala Ridge", lat := 30.789, lng := 78.447,
      types := [.tilt], risk := .Info, last_seen := "2025-10-24 12:13", battery := 3.8 },
    { id := "RG1", name := "Rain Gauge — Bhatwari", lat := 30.791, lng := 78.561,
      types := [.rain], risk := .Info, last_seen := "2025-10-24 12:15", battery := 3.8 },
    { id := "G1", name := "Geophone — Maneri", lat := 30.75, lng := 78.449,
      types := [.geophone], risk := .Watch, last_seen := "2025-10-24 12:10", battery := 3.6 } ]

/-- The seed polygon dataset `const AREAS : Area[]`. -/
def AREAS : List Area :=
  [ { id := "Sector-1", name := "Uttarkashi Ridge", risk := .Warning,
      coords := [⟨30.735, 78.43⟩, ⟨30.745, 78.455⟩, ⟨30.719, 78.465⟩, ⟨30.713, 78.44⟩] },
    { id := "Sector-2", name := "Bhatwari Hills", risk := .Evacuate,
      coords := [⟨30.796, 78.545⟩, ⟨30.806, 78.575⟩, ⟨30.785, 78.583⟩, ⟨30.779, 78.552⟩] } ]

/-- `const riskWeight : Record<Risk, number>` — heatmap weight per risk level. -/
def riskWeight : Risk → ℚ
  | .Info => 0.2
  | .Watch => 0.5
  | .Warning => 0.75
  | .Evacuate => 1

/-- Position of a risk level in the ordered enumeration
Info < Watch < Warning < Evacuate (declaration order of `Risk`). -/
def riskIdx : Risk → ℕ
  | .Info => 0
  | .Watch => 1
  | .Warning => 2
  | .Evacuate => 3

/-- The strict order on risk levels induced by the enumeration order. -/
def riskLt (r₁ r₂ : Risk) : Prop := riskIdx r₁ < riskIdx r₂

instance (r₁ r₂ : Risk) : Decidable (riskLt r₁ r₂) :=
  inferInstanceAs (Decidable (riskIdx r₁ < riskIdx r₂))

/-- JS `s.toLowerCase()` (basic-latin letters), modelled characterwise. -/
def jsToLower (s : String) : String :=
  String.mk (s.data.map Char.toLower)

/-- JS `s.trim()`: strip leading and trailing whitespace, modelled on the
character list. -/
def jsTrim (s : String) : String :=
  String.mk ((((s.data.dropWhile Char.isWhitespace).reverse).dropWhile Char.isWhitespace).reverse)

/-- Substring containment on character lists: does the second list contain
the first as a contiguous run?  Executable counterpart of `List.IsInfix`. -/
def charsContain (needle : List Char) : List Char → Bool
  | [] => needle.isPrefixOf []
  | c :: cs => needle.isPrefixOf (c :: cs) || charsContain needle cs

/-- JS `hay.includes(needle)` on strings. -/
def jsIncludes (hay needle : String) : Bool :=
  charsContain needle.data hay.data

/-- JS `input || dflt` where `input` is `window.prompt`'s result:
`null` and the empty string are falsy and select the default. -/
def jsOrString (input : Option String) (dflt : String) : String :=
  match input with
  | none => dflt
  | some s => if s = "" then dflt else s

/-- The per-node filter predicate shared by `filteredNodes` and
`filteredUserNodes` (lines 304–328 of the source): risk checkbox on,
some sensor-type checkbox on, and the trimmed lowercased query empty or
contained in the lowercased id or name. -/
def nodePasses (riskFilter : Risk → Bool) (typeFilter : SensorType → Bool)
    (query : String) (n : SensorNode) : Bool :=
  let q := jsToLower (jsTrim query)
  let riskOk := riskFilter n.risk
  let typeOk := n.types.any typeFilter
  let qOk := (q == "") || jsIncludes (jsToLower n.id) q || jsIncludes (jsToLower n.name) q
  riskOk && typeOk && qOk

/-- `filteredNodes` — the seed nodes passing the filters. -/
def filteredNodes (riskFilter : Risk → Bool) (typeFilter : SensorType → Bool)
    (query : String) : List SensorNode :=
  NODES.filter (nodePasses riskFilter typeFilter query)

/-- `filteredUserNodes` — the user-created nodes passing the filters. -/
def filteredUserNodes (riskFilter : Risk → Bool) (typeFilter : SensorType → Bool)
    (query : String) (userNodes : List SensorNode) : List SensorNode :=
  userNodes.filter (nodePasses riskFilter typeFilter query)

/-- `countsByRisk` — the `reduce` over `[...filteredNodes, ...filteredUserNodes]`
that increments the bucket of each node's risk, starting from all zeros. -/
def countsByRisk (all : List SensorNode) : Risk → ℕ :=
  all.foldl (fun acc n => fun r => if r = n.risk then acc r + 1 else acc r) (fun _ => 0)

/-- `heatPoints` — `[lat, lng, riskWeight[risk]]` for each displayed node. -/
def heatPoints (riskFilter : Risk → Bool) (typeFilter : SensorType → Bool)
    (query : String) (userNodes : List SensorNode) : List (ℚ × ℚ × ℚ) :=
  (filteredNodes riskFilter typeFilter query ++
      filteredUserNodes riskFilter typeFilter query userNodes).map
    (fun n => (n.lat, n.lng, riskWeight n.risk))

/-- JS `r.charAt(0).toUpperCase() + r.slice(1)`. -/
def capFirst (s : String) : String :=
  match s.data with
  | [] => ""
  | c :: cs => String.mk (Char.toUpper c :: cs)

/-- Risk parsing of `addCheckpoint` (and of `finishArea`, lines 996–998 and
1019–1021): default `"Watch"`, lowercase, capitalize the first letter, and
fall back to `"Watch"` when the result is not one of the four risk names. -/
def normCheckpointRisk (input : Option String) : Risk :=
  let r := jsToLower (jsOrString input "Watch")
  let proper := capFirst r
  if proper = "Info" then .Info
  else if proper = "Watch" then .Watch
  else if proper = "Warning" then .Warning
  else if proper = "Evacuate" then .Evacuate
  else .Watch

/-- Risk parsing of `addDangerFlag` (lines 1060–1062): default `"Warning"`,
lowercase, capitalize, and fall back to `"Warning"` when the result is not
one of `Watch`, `Warning`, `Evacuate`. -/
def normFlagRisk (input : Option String) : Risk :=
  let r := jsToLower (jsOrString input "Warning")
  let proper := capFirst r
  if proper = "Watch" then .Watch
  else if proper = "Warning" then .Warning
  else if proper = "Evacuate" then .Evacuate
  else .Warning

/-- Spec-side restatement of checkpoint risk normalization, written from the
claim's words: match the prompted string case-insensitively against the four
risk names, defaulting to `Watch` outside the enumeration. -/
def specCheckpointRisk (input : Option String) : Risk :=
  match input with
  | none => .Watch
  | some s =>
    if jsToLower s = "info" then .Info
    else if jsToLower s = "watch" then .Watch
    else if jsToLower s = "warning" then .Warning
    else if jsToLower s = "evacuate" then .Evacuate
    else .Watch

/-- Spec-side restatement of danger-flag risk normalization: match
case-insensitively against `{Watch, Warning, Evacuate}`, defaulting to
`Warning` outside that set. -/
def specFlagRisk (input : Option String) : Risk :=
  match input with
  | none => .Warning
  | some s =>
    if jsToLower s = "watch" then .Watch
    else if jsToLower s = "warning" then .Warning
    else if jsToLower s = "evacuate" then .Evacuate
    else .Warning

/-- The component state touched by the annotation handlers.  The seed
datasets are module constants in the source; they are carried as state
fields here so that the frame theorems can speak about them. -/
structure MapState : Type where
  NODES : List SensorNode
  AREAS : List Area
  userNodes : List SensorNode
  userAreas : List Area
  notes : List Note
  flagIds : List String
  drawing : List (ℚ × ℚ)
  drawMode : Bool
  newAreaName : String
  newAreaRisk : Risk
deriving DecidableEq, Repr

/-- Shared body of the two add-note handlers (`onAddNote`, lines 449–456,
and the "Add note here" context-menu item, lines 1104–1111, which duplicate
the same logic): `if (text && text.trim())` append the trimmed note. -/
def addNoteHandler (textPrompt : Option String) (lat lng : ℚ) (uuid : String)
    (now : Int) (s : MapState) : MapState :=
  match textPrompt with
  | none => s
  | some t =>
    if t = "" then s
    else if jsTrim t = "" then s
    else { s with notes := s.notes ++ [{ id := uuid, lat := lat, lng := lng, text := jsTrim t, ts := now }] }

/-- The user operations of the component.  Prompt results, generated UUIDs
and clock reads are carried as operation payloads. -/
inductive Op : Type
  | addCheckpoint (namePrompt riskPrompt : Option String) (uuid uuid₂ : String) (lat lng : ℚ) (now : String)
  | addDangerFlag (namePrompt riskPrompt : Option String) (uuid : String) (lat lng : ℚ) (now : String)
  | addNoteClick (textPrompt : Option String) (lat lng : ℚ) (uuid : String) (now : Int)
  | addNoteMenu (textPrompt : Option String) (lat lng : ℚ) (uuid : String) (now : Int)
  | finishArea (namePrompt riskPrompt : Option String) (uuid : String)
  | finishSaveClick (uuid : String)
  | deleteCheckpointPopup (id : String)
  | deleteCheckpointMenu (id : String)
  | deleteNote (id : String)
  | deleteArea (id : String)
  | addVertex (lat lng : ℚ)
  | undoVertex
  | cancelDrawing

/-- One step of the component: each branch is the corresponding handler of
the source, with `window.prompt` results, `safeUUID()` values and clock
reads taken from the operation payload. -/
def step : Op → MapState → MapState
  | .addCheckpoint namePrompt riskPrompt uuid uuid₂ lat lng now, s =>
    let name := jsOrString namePrompt ("Checkpoint " ++ uuid₂.take 4)
    let risk := normCheckpointRisk riskPrompt
    { s with userNodes := s.userNodes ++
        [{ id := uuid, name := name, lat := lat, lng := lng, types := [.tilt],
           risk := risk, last_seen := now, battery := 3.8 }] }
  | .addDangerFlag namePrompt riskPrompt uuid lat lng now, s =>
    let name := jsOrString namePrompt "Danger Flag"
    let risk := normFlagRisk riskPrompt
    { s with
        userNodes := s.userNodes ++
          [{ id := uuid, name := name, lat := lat, lng := lng, types := [.tilt],
             risk := risk, last_seen := now, battery := 3.8 }],
        flagIds := s.flagIds ++ [uuid] }
  | .addNoteClick textPrompt lat lng uuid now, s => addNoteHandler textPrompt lat lng uuid now s
  | .addNoteMenu textPrompt lat lng uuid now, s => addNoteHandler textPrompt lat lng uuid now s
  | .finishArea namePrompt riskPrompt uuid, s =>
    if s.drawing.length < 3 then s
    else
      let nm := jsOrString namePrompt "New area"
      let risk := normCheckpointRisk riskPrompt
      let id := "UA-" ++ uuid.take 6
      let coords := s.drawing.map (fun p => Coord.mk p.1 p.2)
      { s with
          userAreas := s.userAreas ++ [{ id := id, name := nm, risk := risk, coords := coords }],
          drawing := [], newAreaName := "", newAreaRisk := .Watch, drawMode := false }
  | .finishSaveClick uuid, s =>
    if s.drawing.length < 3 ∨ jsTrim s.newAreaName = "" then s
    else
      let id := "UA-" ++ uuid.take 6
      let coords := s.drawing.map (fun p => Coord.mk p.1 p.2)
      { s with
          userAreas := s.userAreas ++
            [{ id := id, name := jsTrim s.newAreaName, risk := s.newAreaRisk, coords := coords }],
          drawing := [], newAreaName := "", newAreaRisk := .Watch, drawMode := false }
  | .deleteCheckpointPopup id, s =>
    { s with userNodes := s.userNodes.filter (fun u => u.id != id) }
  | .deleteCheckpointMenu id, s =>
    let isFlag := s.flagIds.contains id
    { s with
        flagIds := if isFlag then s.flagIds.filter (fun x => x != id) else s.flagIds,
        userNodes := s.userNodes.filter (fun u => u.id != id) }
  | .deleteNote id, s => { s with notes := s.notes.filter (fun n => n.id != id) }
  | .deleteArea id, s => { s with userAreas := s.userAreas.filter (fun a => a.id != id) }
  | .addVertex lat lng, s => { s with drawing := s.drawing ++ [(lat, lng)] }
  | .undoVertex, s => { s with drawing := s.drawing.dropLast }
  | .cancelDrawing, s => { s with drawing := [], drawMode := false }

/-- A latitude/longitude bounding box (a valid `LatLngBounds`). -/
structure BBox : Type where
  minLat : ℚ
  maxLat : ℚ
  minLng : ℚ
  maxLng : ℚ
deriving DecidableEq, Repr

/-- `LatLngBounds.extend` with a point: an invalid (empty) bounds becomes
the degenerate box at the point; a valid one grows to include it. -/
def extendB (b : Option BBox) (la ln : ℚ) : Option BBox :=
  match b with
  | none => some ⟨la, la, ln, ln⟩
  | some b => some ⟨min b.minLat la, max b.maxLat la, min b.minLng ln, max b.maxLng ln⟩

/-- The bounds accumulated by `FitToData` (lines 246–253): start from the
invalid empty bounds, extend with every node coordinate, then with every
vertex of every area. -/
def computeBounds (nodes : List SensorNode) (areas : List Area) : Option BBox :=
  let b₁ := nodes.foldl (fun b n => extendB b n.lat n.lng) none
  areas.foldl (fun b a => a.coords.foldl (fun b c => extendB b c.lat c.lng) b) b₁

/-- `LatLngBounds.pad(ratio)`: buffers of `|Δlat| * ratio` and
`|Δlng| * ratio` added on every side. -/
def padB (b : BBox) (ratio : ℚ) : BBox :=
  let hBuf := |b.maxLat - b.minLat| * ratio
  let wBuf := |b.maxLng - b.minLng| * ratio
  ⟨b.minLat - hBuf, b.maxLat + hBuf, b.minLng - wBuf, b.maxLng + wBuf⟩

/-- The `FitToData` effect: when the accumulated bounds are valid, fit the
map to them padded by `0.2`; otherwise do nothing. -/
def fitToData (nodes : List SensorNode) (areas : List Area) : Option BBox :=
  match computeBounds nodes areas with
  | some b => some (padB b 0.2)
  | none => none

/-- Membership of a point in a bounding box. -/
def containsB (b : BBox) (la ln : ℚ) : Prop :=
  b.minLat ≤ la ∧ la ≤ b.maxLat ∧ b.minLng ≤ ln ∧ ln ≤ b.maxLng

/-- The `nodes` prop handed to `FitToData` (lines 461–466): the filtered
nodes when any survive the filters, otherwise all seed plus user nodes. -/
def nodesForFit (riskFilter : Risk → Bool) (typeFilter : SensorType → Bool)
    (query : String) (userNodes : List SensorNode) : List SensorNode :=
  let shown := filteredNodes riskFilter typeFilter query ++
    filteredUserNodes riskFilter typeFilter query userNodes
  if shown.length ≠ 0 then shown else NODES ++ userNodes

/-- `allAreas = [...AREAS, ...userAreas]` — the `areas` prop of `FitToData`. -/
def allAreas (userAreas : List Area) : List Area := AREAS ++ userAreas

/-- Folding `extendB` over a list of points. -/
def extendPts (b : Option BBox) (pts : List (ℚ × ℚ)) : Option BBox :=
  pts.foldl (fun b p => extendB b p.1 p.2) b

/-- A concrete user-created node, used by the witness theorems. -/
def demoNode : SensorNode :=
  { id := "X1", name := "Demo Cliff", lat := 10, lng := 20, types := [.tilt],
    risk := .Watch, last_seen := "2025-01-01 00:00", battery := 4 }

/-- A concrete component state, used by the witness theorems. -/
def demoState : MapState :=
  { NODES := [], AREAS := [], userNodes := [], userAreas := [], notes := [],
    flagIds := [], drawing := [(1, 2)], drawMode := true, newAreaName := "hill",
    newAreaRisk := .Watch }

/-- The executable substring test agrees with `List.IsInfix`. -/
theorem charsContain_iff (needle hay : List Char) :
    charsContain needle hay = true ↔ needle <:+: hay := by
  induction hay with
  | nil => simp [charsContain]
  | cons c cs ih => simp [charsContain, List.infix_cons_iff, ih]

/-- Unfolding of the per-node filter predicate into the three
proposition-level conjuncts. -/
theorem nodePasses_iff {rf : Risk → Bool} {tf : SensorType → Bool} {q : String} {n : SensorNode} :
    nodePasses rf tf q n = true ↔
      rf n.risk = true ∧ (∃ t ∈ n.types, tf t = true) ∧
        (jsToLower (jsTrim q) = "" ∨
          (jsToLower (jsTrim q)).data <:+: (jsToLower n.id).data ∨
          (jsToLower (jsTrim q)).data <:+: (jsToLower n.name).data) := by
  simp [nodePasses, jsIncludes, charsContain_iff, List.any_eq_true, Bool.and_eq_true,
    Bool.or_eq_true, beq_iff_eq, and_assoc, or_assoc]

/-- Round-trip of `Char.ofNat` on codepoints below the surrogate range. -/
theorem toNat_ofNat_valid {n : ℕ} (h : n < 55296) : (Char.ofNat n).toNat = n := by
  rw [Char.ofNat, dif_pos (Or.inl h)]
  rfl

/-- Characters with equal codepoints are equal. -/
theorem char_toNat_inj {a b : Char} (h : a.toNat = b.toNat) : a = b := by
  rw [← Char.ofNat_toNat a, h, Char.ofNat_toNat]

/-- Uppercasing a lowercased character hits a given basic-latin capital
exactly when the lowercased character is its lowercase form (here `lo` is
`up` shifted by 32). -/
theorem toUpper_toLower_eq_iff (c lo up : Char)
    (hlo : lo.toNat = up.toNat + 32) (h65 : 65 ≤ up.toNat) (h90 : up.toNat ≤ 90) :
    (Char.toLower c).toUpper = up ↔ Char.toLower c = lo := by
  rw [Char.toLower]
  split
  · next h =>
    have hx : (Char.ofNat (c.toNat + 32)).toNat = c.toNat + 32 := toNat_ofNat_valid (by omega)
    rw [Char.toUpper]
    split
    · next h2 =>
      have hback : Char.ofNat ((Char.ofNat (c.toNat + 32)).toNat - 32) = c := by
        rw [hx]
        simp [Char.ofNat_toNat]
      rw [hback]
      constructor
      · intro hc
        apply char_toNat_inj
        rw [hx, hlo, hc]
      · intro hc
        apply char_toNat_inj
        have := congrArg Char.toNat hc
        rw [hx, hlo] at this
        omega
    · next h2 =>
      rw [hx] at h2
      omega
  · next h =>
    rw [Char.toUpper]
    split
    · next h2 =>
      have hx : (Char.ofNat (c.toNat - 32)).toNat = c.toNat - 32 := toNat_ofNat_valid (by omega)
      constructor
      · intro hc
        apply char_toNat_inj
        have := congrArg Char.toNat hc
        rw [hx] at this
        omega
      · intro hc
        apply char_toNat_inj
        have := congrArg Char.toNat hc
        rw [hlo] at this
        rw [hx]
        omega
    · next h2 =>
      constructor
      · intro hc
        have := congrArg Char.toNat hc
        omega
      · intro hc
        have := congrArg Char.toNat hc
        rw [hlo] at this
        omega

/-- Capitalizing a lowercased string yields a capitalized name exactly when
the lowercased string is the all-lowercase name. -/
theorem capFirst_jsToLower_eq_iff (s : String) (lo up : Char) (tail : List Char)
    (hlo : lo.toNat = up.toNat + 32) (h65 : 65 ≤ up.toNat) (h90 : up.toNat ≤ 90) :
    (capFirst (jsToLower s) = String.mk (up :: tail) ↔ jsToLower s = String.mk (lo :: tail)) := by
  cases hs : s.data with
  | nil =>
    simp [capFirst, jsToLower, hs, String.ext_iff]
  | cons c cs =>
    simp only [jsToLower, hs, List.map_cons, capFirst, String.ext_iff, List.cons.injEq]
    exact and_congr_left' (toUpper_toLower_eq_iff c lo up hlo h65 h90)

/-- The counting fold of `countsByRisk`, for an arbitrary accumulator. -/
theorem countsByRisk_foldl (xs : List SensorNode) (acc : Risk → ℕ) (r : Risk) :
    xs.foldl (fun acc n => fun r' => if r' = n.risk then acc r' + 1 else acc r') acc r =
      acc r + (xs.filter (fun n => n.risk == r)).length := by
  induction xs generalizing acc with
  | nil => simp
  | cons x xs ih =>
    rw [List.foldl_cons, ih]
    by_cases h : r = x.risk
    · subst h
      simp [List.filter_cons]
      omega
    · simp only [List.filter_cons, beq_iff_eq]
      rw [if_neg h, if_neg (Ne.symm h)]

/-- The four buckets of the counting fold sum to the list length plus the
accumulated total. -/
theorem countsByRisk_sum_foldl (xs : List SensorNode) (acc : Risk → ℕ) :
    (xs.foldl (fun acc n => fun r' => if r' = n.risk then acc r' + 1 else acc r') acc) .Info +
      (xs.foldl (fun acc n => fun r' => if r' = n.risk then acc r' + 1 else acc r') acc) .Watch +
      (xs.foldl (fun acc n => fun r' => if r' = n.risk then acc r' + 1 else acc r') acc) .Warning +
      (xs.foldl (fun acc n => fun r' => if r' = n.risk then acc r' + 1 else acc r') acc) .Evacuate =
      acc .Info + acc .Watch + acc .Warning + acc .Evacuate + xs.length := by
  induction xs generalizing acc with
  | nil => simp
  | cons x xs ih =>
    rw [List.foldl_cons, ih]
    cases hx : x.risk <;> simp [hx] <;> omega

/-- `countsByRisk` counts the nodes of the given risk. -/
theorem countsByRisk_count (xs : List SensorNode) (r : Risk) :
    countsByRisk xs r = (xs.filter (fun n => n.risk == r)).length := by
  rw [countsByRisk, countsByRisk_foldl]
  omega

/-- The four risk buckets partition the node list. -/
theorem countsByRisk_total (xs : List SensorNode) :
    countsByRisk xs .Info + countsByRisk xs .Watch + countsByRisk xs .Warning +
      countsByRisk xs .Evacuate = xs.length := by
  simp only [countsByRisk]
  rw [countsByRisk_sum_foldl]
  omega

/-- The add-note handler either rejects (state unchanged) or appends one
trimmed note. -/
theorem addNoteHandler_eq (tp : Option String) (la ln : ℚ) (u : String) (now : Int)
    (s : MapState) :
    addNoteHandler tp la ln u now s = s ∨
      ∃ t, addNoteHandler tp la ln u now s =
        { s with notes := s.notes ++ [⟨u, la, ln, jsTrim t, now⟩] } := by
  cases tp with
  | none => exact Or.inl rfl
  | some t =>
    by_cases h1 : t = ""
    · exact Or.inl (by simp [addNoteHandler, h1])
    · by_cases h2 : jsTrim t = ""
      · exact Or.inl (by simp [addNoteHandler, h1, h2])
      · exact Or.inr ⟨t, by simp [addNoteHandler, h1, h2]⟩

/-- Extending bounds with a point makes them contain that point. -/
theorem extendB_adds (b : Option BBox) (p q : ℚ) :
    ∀ bb, extendB b p q = some bb → containsB bb p q := by
  cases b with
  | none =>
    intro bb h
    simp only [extendB, Option.some.injEq] at h
    subst h
    simp [containsB]
  | some b0 =>
    intro bb h
    simp only [extendB, Option.some.injEq] at h
    subst h
    exact ⟨min_le_right _ _, le_max_right _ _, min_le_right _ _, le_max_right _ _⟩

/-- Extending valid bounds keeps every point they already contain. -/
theorem extendB_keeps (b0 : BBox) (p q la ln : ℚ) (h : containsB b0 la ln) :
    ∀ bb, extendB (some b0) p q = some bb → containsB bb la ln := by
  intro bb hb
  simp only [extendB, Option.some.injEq] at hb
  subst hb
  obtain ⟨h1, h2, h3, h4⟩ := h
  exact ⟨le_trans (min_le_left _ _) h1, le_trans h2 (le_max_left _ _),
    le_trans (min_le_left _ _) h3, le_trans h4 (le_max_left _ _)⟩

/-- A fold of `extendB` is invalid exactly when it started invalid and saw
no point. -/
theorem extendPts_none_iff (pts : List (ℚ × ℚ)) (b : Option BBox) :
    extendPts b pts = none ↔ b = none ∧ pts = [] := by
  induction pts generalizing b with
  | nil => simp [extendPts]
  | cons p ps ih =>
    simp only [extendPts, List.foldl_cons]
    rw [show ps.foldl (fun b p => extendB b p.1 p.2) (extendB b p.1 p.2) =
      extendPts (extendB b p.1 p.2) ps from rfl, ih]
    constructor
    · rintro ⟨h, -⟩
      cases b <;> simp [extendB] at h
    · rintro ⟨-, h⟩
      exact absurd h (by simp)

/-- A fold of `extendB` from valid bounds keeps contained points. -/
theorem extendPts_keeps (pts : List (ℚ × ℚ)) (b0 : BBox) (la ln : ℚ)
    (h : containsB b0 la ln) :
    ∀ bb, extendPts (some b0) pts = some bb → containsB bb la ln := by
  induction pts generalizing b0 with
  | nil =>
    intro bb hb
    simp only [extendPts, List.foldl_nil, Option.some.injEq] at hb
    subst hb
    exact h
  | cons p ps ih =>
    intro bb hb
    simp only [extendPts, List.foldl_cons] at hb
    have h1 : containsB ⟨min b0.minLat p.1, max b0.maxLat p.1,
        min b0.minLng p.2, max b0.maxLng p.2⟩ la ln :=
      extendB_keeps b0 p.1 p.2 la ln h _ rfl
    exact ih _ h1 bb hb

/-- A fold of `extendB` contains every point of its list. -/
theorem extendPts_mem (pts : List (ℚ × ℚ)) (b : Option BBox) (p : ℚ × ℚ) (hp : p ∈ pts) :
    ∀ bb, extendPts b pts = some bb → containsB bb p.1 p.2 := by
  induction pts generalizing b with
  | nil => cases hp
  | cons x xs ih =>
    intro bb hb
    simp only [extendPts, List.foldl_cons] at hb
    rcases List.mem_cons.mp hp with rfl | hp'
    · obtain ⟨bx, hbx⟩ : ∃ bx, extendB b p.1 p.2 = some bx := by
        cases b <;> exact ⟨_, rfl⟩
      rw [hbx] at hb
      exact extendPts_keeps xs bx p.1 p.2 (extendB_adds b p.1 p.2 bx hbx) bb hb
    · exact ih _ hp' bb hb

/-- The nested area fold of `computeBounds` is a point fold over all area
vertices. -/
theorem areas_fold_eq (areas : List Area) (b : Option BBox) :
    areas.foldl (fun b a => a.coords.foldl (fun b c => extendB b c.lat c.lng) b) b =
      extendPts b (areas.flatMap (fun a => a.coords.map (fun c => (c.lat, c.lng)))) := by
  induction areas generalizing b with
  | nil => simp [extendPts]
  | cons a as ih =>
    simp only [List.foldl_cons, List.flatMap_cons, extendPts, List.foldl_append, List.foldl_map]
    exact ih _

/-- `computeBounds` is a single point fold over node coordinates followed by
area vertices. -/
theorem computeBounds_eq (nodes : List SensorNode) (areas : List Area) :
    computeBounds nodes areas =
      extendPts none (nodes.map (fun n => (n.lat, n.lng)) ++
        areas.flatMap (fun a => a.coords.map (fun c => (c.lat, c.lng)))) := by
  simp only [computeBounds, areas_fold_eq, extendPts, List.foldl_append, List.foldl_map]

/-- Padding by a nonnegative ratio only enlarges the bounds. -/
theorem padB_contains (b : BBox) (ratio la ln : ℚ) (hr : 0 ≤ ratio)
    (h : containsB b la ln) : containsB (padB b ratio) la ln := by
  obtain ⟨h1, h2, h3, h4⟩ := h
  have hh : 0 ≤ |b.maxLat - b.minLat| * ratio := mul_nonneg (abs_nonneg _) hr
  have hw : 0 ≤ |b.maxLng - b.minLng| * ratio := mul_nonneg (abs_nonneg _) hr
  refine ⟨?_, ?_, ?_, ?_⟩ <;> simp only [padB]
  · linarith
  · linarith
  · linarith
  · linarith

/-- C1: a seed or user-created node appears in the derived filtered
view-model iff (a) its risk checkbox is enabled, (b) at least one of its
sensor-type tags is enabled, and (c) the trimmed lowercased query is empty
or is an infix of its lowercased id or name — the filter pipeline is the
conjunction of the risk, type and text-query predicates. -/
theorem filter_pipeline_iff (rf : Risk → Bool) (tf : SensorType → Bool)
    (q : String) (userNodes : List SensorNode) (n : SensorNode)
    (hn : n ∈ NODES ∨ n ∈ userNodes) :
    (n ∈ filteredNodes rf tf q ∨ n ∈ filteredUserNodes rf tf q userNodes) ↔
      rf n.risk = true ∧ (∃ t ∈ n.types, tf t = true) ∧
        (jsToLower (jsTrim q) = "" ∨
          (jsToLower (jsTrim q)).data <:+: (jsToLower n.id).data ∨
          (jsToLower (jsTrim q)).data <:+: (jsToLower n.name).data) := by
  constructor
  · rintro (h | h)
    · exact nodePasses_iff.mp (List.mem_filter.mp h).2
    · exact nodePasses_iff.mp (List.mem_filter.mp h).2
  · intro h
    rcases hn with hn | hn
    · exact Or.inl (List.mem_filter.mpr ⟨hn, nodePasses_iff.mpr h⟩)
    · exact Or.inr (List.mem_filter.mpr ⟨hn, nodePasses_iff.mpr h⟩)

/-- Witness for C1 at a concrete node, filter state and query. -/
theorem filter_pipeline_iff_witness :
    (demoNode ∈ filteredNodes (fun _ => true) (fun _ => true) "cliff" ∨
        demoNode ∈ filteredUserNodes (fun _ => true) (fun _ => true) "cliff" [demoNode]) ↔
      (fun _ : Risk => true) demoNode.risk = true ∧
        (∃ t ∈ demoNode.types, (fun _ : SensorType => true) t = true) ∧
        (jsToLower (jsTrim "cliff") = "" ∨
          (jsToLower (jsTrim "cliff")).data <:+: (jsToLower demoNode.id).data ∨
          (jsToLower (jsTrim "cliff")).data <:+: (jsToLower demoNode.name).data) :=
  filter_pipeline_iff _ _ _ _ demoNode (Or.inr (by simp))

/-- C2: for every risk level and every filter state, the derived
counts-by-risk value equals the number of nodes of that risk level in the
concatenation of filtered seed and filtered user nodes, and the four counts
sum to the total number of displayed nodes. -/
theorem countsByRisk_spec (rf : Risk → Bool) (tf : SensorType → Bool) (q : String)
    (userNodes : List SensorNode) (r : Risk) :
    countsByRisk (filteredNodes rf tf q ++ filteredUserNodes rf tf q userNodes) r =
      ((filteredNodes rf tf q ++ filteredUserNodes rf tf q userNodes).filter
        (fun n => n.risk == r)).length ∧
    countsByRisk (filteredNodes rf tf q ++ filteredUserNodes rf tf q userNodes) .Info +
      countsByRisk (filteredNodes rf tf q ++ filteredUserNodes rf tf q userNodes) .Watch +
      countsByRisk (filteredNodes rf tf q ++ filteredUserNodes rf tf q userNodes) .Warning +
      countsByRisk (filteredNodes rf tf q ++ filteredUserNodes rf tf q userNodes) .Evacuate =
      (filteredNodes rf tf q ++ filteredUserNodes rf tf q userNodes).length := by
  exact ⟨countsByRisk_count _ r, countsByRisk_total _⟩

/-- C3: the heat-point list is exactly one entry per node that passes the
filters, placed at the node coordinate, whose weight is determined solely by
the risk level (Info 0.2, Watch 0.5, Warning 0.75, Evacuate 1), with no
other entries. -/
theorem heatPoints_spec (rf : Risk → Bool) (tf : SensorType → Bool) (q : String)
    (userNodes : List SensorNode) :
    heatPoints rf tf q userNodes =
      (filteredNodes rf tf q ++ filteredUserNodes rf tf q userNodes).map
        (fun n => (n.lat, n.lng,
          if n.risk = .Info then (0.2 : ℚ)
          else if n.risk = .Watch then 0.5
          else if n.risk = .Warning then 0.75
          else 1)) := by
  simp only [heatPoints]
  apply List.map_congr_left
  intro n _
  cases hr : n.risk <;> simp [riskWeight, hr]

/-- C4: the heatmap weight function is strictly monotone in the order
Info < Watch < Warning < Evacuate of the risk enumeration. -/
theorem riskWeight_strictMono (r₁ r₂ : Risk) (h : riskLt r₁ r₂) :
    riskWeight r₁ < riskWeight r₂ := by
  cases r₁ <;> cases r₂ <;>
    simp [riskLt, riskIdx] at h ⊢ <;>
    norm_num [riskWeight]

/-- Witness for C4 at a concrete pair of risk levels. -/
theorem riskWeight_strictMono_witness :
    riskLt .Info .Evacuate ∧ riskWeight .Info < riskWeight .Evacuate :=
  ⟨by decide, riskWeight_strictMono .Info .Evacuate (by decide)⟩

/-- C5: finalizing a drawn area (the context-menu finish action or the
save button) with fewer than 3 drawn vertices leaves the state unchanged,
and every area ever appended to the user-areas collection by any operation
has at least 3 vertices. -/
theorem finalize_requires_three_vertices (s : MapState) (namePrompt riskPrompt : Option String)
    (uuid : String) :
    (s.drawing.length < 3 →
        step (.finishArea namePrompt riskPrompt uuid) s = s ∧
        step (.finishSaveClick uuid) s = s) ∧
    (∀ op : Op, ∀ a : Area, a ∈ (step op s).userAreas → a ∈ s.userAreas ∨ 3 ≤ a.coords.length) := by
  constructor
  · intro h
    constructor
    · simp [step, if_pos h]
    · simp [step, if_pos (Or.inl h)]
  · intro op a ha
    cases op with
    | finishArea np rp u =>
      simp only [step] at ha
      split at ha
      · exact Or.inl ha
      · next hge =>
        rcases List.mem_append.mp ha with h | h
        · exact Or.inl h
        · right
          simp only [List.mem_singleton] at h
          subst h
          simp [List.length_map]
          omega
    | finishSaveClick u =>
      simp only [step] at ha
      split at ha
      · exact Or.inl ha
      · next hge =>
        rcases List.mem_append.mp ha with h | h
        · exact Or.inl h
        · right
          simp only [List.mem_singleton] at h
          subst h
          simp [List.length_map]
          omega
    | deleteArea i =>
      simp only [step, List.mem_filter] at ha
      exact Or.inl ha.1
    | addCheckpoint np rp u u2 la ln now => exact Or.inl (by simpa [step] using ha)
    | addDangerFlag np rp u la ln now => exact Or.inl (by simpa [step] using ha)
    | addNoteClick tp la ln u now =>
      cases tp with
      | none => exact Or.inl (by simpa [step, addNoteHandler] using ha)
      | some t =>
        simp only [step, addNoteHandler] at ha
        split at ha
        · exact Or.inl ha
        · split at ha
          · exact Or.inl ha
          · exact Or.inl ha
    | addNoteMenu tp la ln u now =>
      cases tp with
      | none => exact Or.inl (by simpa [step, addNoteHandler] using ha)
      | some t =>
        simp only [step, addNoteHandler] at ha
        split at ha
        · exact Or.inl ha
        · split at ha
          · exact Or.inl ha
          · exact Or.inl ha
    | deleteCheckpointPopup i => exact Or.inl (by simpa [step] using ha)
    | deleteCheckpointMenu i => exact Or.inl (by simpa [step] using ha)
    | deleteNote i => exact Or.inl (by simpa [step] using ha)
    | addVertex la ln => exact Or.inl (by simpa [step] using ha)
    | undoVertex => exact Or.inl (by simpa [step] using ha)
    | cancelDrawing => exact Or.inl (by simpa [step] using ha)

/-- Witness for C5: both finalize operations are no-ops on a concrete state
with a one-vertex drawing. -/
theorem finalize_requires_three_vertices_witness :
    step (.finishArea none none "u0") demoState = demoState ∧
    step (.finishSaveClick "u0") demoState = demoState :=
  (finalize_requires_three_vertices demoState none none "u0").1 (by decide)

/-- C6: every user operation leaves the seed NODES and AREAS datasets
unchanged, and each user collection (user nodes, user areas, notes, flag
ids) either gains an appended suffix or shrinks to a sublist of itself. -/
theorem user_ops_frame (op : Op) (s : MapState) :
    (step op s).NODES = s.NODES ∧ (step op s).AREAS = s.AREAS ∧
    ((∃ t, (step op s).userNodes = s.userNodes ++ t) ∨ (step op s).userNodes.Sublist s.userNodes) ∧
    ((∃ t, (step op s).userAreas = s.userAreas ++ t) ∨ (step op s).userAreas.Sublist s.userAreas) ∧
    ((∃ t, (step op s).notes = s.notes ++ t) ∨ (step op s).notes.Sublist s.notes) ∧
    ((∃ t, (step op s).flagIds = s.flagIds ++ t) ∨ (step op s).flagIds.Sublist s.flagIds) := by
  cases op with
  | addCheckpoint np rp u u2 la ln now =>
    exact ⟨rfl, rfl, Or.inl ⟨_, rfl⟩, Or.inr (List.Sublist.refl _), Or.inr (List.Sublist.refl _),
      Or.inr (List.Sublist.refl _)⟩
  | addDangerFlag np rp u la ln now =>
    exact ⟨rfl, rfl, Or.inl ⟨_, rfl⟩, Or.inr (List.Sublist.refl _), Or.inr (List.Sublist.refl _),
      Or.inl ⟨_, rfl⟩⟩
  | addNoteClick tp la ln u now =>
    rcases addNoteHandler_eq tp la ln u now s with h | ⟨t, h⟩ <;>
      rw [show step (.addNoteClick tp la ln u now) s = addNoteHandler tp la ln u now s from rfl, h]
    · exact ⟨rfl, rfl, Or.inr (List.Sublist.refl _), Or.inr (List.Sublist.refl _),
        Or.inr (List.Sublist.refl _), Or.inr (List.Sublist.refl _)⟩
    · exact ⟨rfl, rfl, Or.inr (List.Sublist.refl _), Or.inr (List.Sublist.refl _),
        Or.inl ⟨_, rfl⟩, Or.inr (List.Sublist.refl _)⟩
  | addNoteMenu tp la ln u now =>
    rcases addNoteHandler_eq tp la ln u now s with h | ⟨t, h⟩ <;>
      rw [show step (.addNoteMenu tp la ln u now) s = addNoteHandler tp la ln u now s from rfl, h]
    · exact ⟨rfl, rfl, Or.inr (List.Sublist.refl _), Or.inr (List.Sublist.refl _),
        Or.inr (List.Sublist.refl _), Or.inr (List.Sublist.refl _)⟩
    · exact ⟨rfl, rfl, Or.inr (List.Sublist.refl _), Or.inr (List.Sublist.refl _),
        Or.inl ⟨_, rfl⟩, Or.inr (List.Sublist.refl _)⟩
  | finishArea np rp u =>
    by_cases h : s.drawing.length < 3
    · rw [show step (.finishArea np rp u) s = s from by simp [step, if_pos h]]
      exact ⟨rfl, rfl, Or.inr (List.Sublist.refl _), Or.inr (List.Sublist.refl _),
        Or.inr (List.Sublist.refl _), Or.inr (List.Sublist.refl _)⟩
    · simp only [step]
      rw [if_neg h]
      exact ⟨rfl, rfl, Or.inr (List.Sublist.refl _), Or.inl ⟨_, rfl⟩,
        Or.inr (List.Sublist.refl _), Or.inr (List.Sublist.refl _)⟩
  | finishSaveClick u =>
    by_cases h : s.drawing.length < 3 ∨ jsTrim s.newAreaName = ""
    · rw [show step (.finishSaveClick u) s = s from by simp [step, if_pos h]]
      exact ⟨rfl, rfl, Or.inr (List.Sublist.refl _), Or.inr (List.Sublist.refl _),
        Or.inr (List.Sublist.refl _), Or.inr (List.Sublist.refl _)⟩
    · simp only [step]
      rw [if_neg h]
      exact ⟨rfl, rfl, Or.inr (List.Sublist.refl _), Or.inl ⟨_, rfl⟩,
        Or.inr (List.Sublist.refl _), Or.inr (List.Sublist.refl _)⟩
  | deleteCheckpointPopup i =>
    exact ⟨rfl, rfl, Or.inr (List.filter_sublist _), Or.inr (List.Sublist.refl _),
      Or.inr (List.Sublist.refl _), Or.inr (List.Sublist.refl _)⟩
  | deleteCheckpointMenu i =>
    refine ⟨rfl, rfl, Or.inr (List.filter_sublist _), Or.inr (List.Sublist.refl _),
      Or.inr (List.Sublist.refl _), Or.inr ?_⟩
    simp only [step]
    by_cases h : s.flagIds.contains i = true
    · rw [if_pos h]
      exact List.filter_sublist _
    · rw [if_neg h]
  | deleteNote i =>
    exact ⟨rfl, rfl, Or.inr (List.Sublist.refl _), Or.inr (List.Sublist.refl _),
      Or.inr (List.filter_sublist _), Or.inr (List.Sublist.refl _)⟩
  | deleteArea i =>
    exact ⟨rfl, rfl, Or.inr (List.Sublist.refl _), Or.inr (List.filter_sublist _),
      Or.inr (List.Sublist.refl _), Or.inr (List.Sublist.refl _)⟩
  | addVertex la ln =>
    exact ⟨rfl, rfl, Or.inr (List.Sublist.refl _), Or.inr (List.Sublist.refl _),
      Or.inr (List.Sublist.refl _), Or.inr (List.Sublist.refl _)⟩
  | undoVertex =>
    exact ⟨rfl, rfl, Or.inr (List.Sublist.refl _), Or.inr (List.Sublist.refl _),
      Or.inr (List.Sublist.refl _), Or.inr (List.Sublist.refl _)⟩
  | cancelDrawing =>
    exact ⟨rfl, rfl, Or.inr (List.Sublist.refl _), Or.inr (List.Sublist.refl _),
      Or.inr (List.Sublist.refl _), Or.inr (List.Sublist.refl _)⟩

/-- C7: the bounds fitted by FitToData are applied exactly when at least one
point was accumulated, and they contain the coordinate of every node of the
node list and every vertex of every area of the area list. -/
theorem fitToData_bounds (nodes : List SensorNode) (areas : List Area) :
    ((fitToData nodes areas).isSome ↔ nodes ≠ [] ∨ ∃ a ∈ areas, a.coords ≠ []) ∧
    ∀ b, fitToData nodes areas = some b →
      (∀ n ∈ nodes, containsB b n.lat n.lng) ∧
      ∀ a ∈ areas, ∀ c ∈ a.coords, containsB b c.lat c.lng := by
  constructor
  · rw [fitToData]
    rcases hc : computeBounds nodes areas with - | b0
    · rw [computeBounds_eq, extendPts_none_iff] at hc
      simp only [List.append_eq_nil, List.map_eq_nil_iff, List.flatMap_eq_nil_iff] at hc
      simp only [Option.isSome_none, Bool.false_eq_true, false_iff]
      push_neg
      exact ⟨hc.2.1, hc.2.2⟩
    · simp only [Option.isSome_some, true_iff]
      by_contra hcon
      push_neg at hcon
      obtain ⟨hn, hareas⟩ := hcon
      have hnone : computeBounds nodes areas = none := by
        rw [computeBounds_eq, extendPts_none_iff]
        simp only [List.append_eq_nil, List.map_eq_nil_iff, List.flatMap_eq_nil_iff]
        exact ⟨by simp, hn, hareas⟩
      rw [hnone] at hc
      cases hc
  · intro b hb
    rw [fitToData] at hb
    rcases hc : computeBounds nodes areas with - | b0
    · rw [hc] at hb
      cases hb
    · rw [hc] at hb
      simp only [Option.some.injEq] at hb
      subst hb
      have hmem : ∀ p : ℚ × ℚ,
          p ∈ nodes.map (fun n => (n.lat, n.lng)) ++
            areas.flatMap (fun a => a.coords.map (fun c => (c.lat, c.lng))) →
          containsB b0 p.1 p.2 := by
        intro p hp
        exact extendPts_mem _ none p hp b0 (by rw [← computeBounds_eq, hc])
      constructor
      · intro n hn
        exact padB_contains b0 0.2 n.lat n.lng (by norm_num)
          (hmem (n.lat, n.lng) (List.mem_append_left _ (List.mem_map.mpr ⟨n, hn, rfl⟩)))
      · intro a ha c hcc
        refine padB_contains b0 0.2 c.lat c.lng (by norm_num) ?_
        refine hmem (c.lat, c.lng) (List.mem_append_right _ ?_)
        exact List.mem_flatMap.mpr ⟨a, ha, List.mem_map.mpr ⟨c, hcc, rfl⟩⟩

/-- Witness for C7: the fitted bounds of a singleton node list contain that
node. -/
theorem fitToData_bounds_witness :
    containsB ⟨10, 10, 20, 20⟩ demoNode.lat demoNode.lng := by
  have heval : fitToData [demoNode] [] = some ⟨10, 10, 20, 20⟩ := by
    simp [fitToData, computeBounds, extendB, padB, demoNode]
  exact ((fitToData_bounds [demoNode] []).2 ⟨10, 10, 20, 20⟩ heval).1 demoNode (by simp)

/-- C8: when the filtered seed and user node lists are both empty, the node
list handed to FitToData falls back to all seed plus user nodes; when some
node passes, the filtered lists are used; the area list is always all seed
plus user areas, independent of the filters. -/
theorem nodesForFit_spec (rf : Risk → Bool) (tf : SensorType → Bool) (q : String)
    (userNodes : List SensorNode) (userAreas : List Area) :
    (filteredNodes rf tf q ++ filteredUserNodes rf tf q userNodes = [] →
        nodesForFit rf tf q userNodes = NODES ++ userNodes) ∧
    (filteredNodes rf tf q ++ filteredUserNodes rf tf q userNodes ≠ [] →
        nodesForFit rf tf q userNodes =
          filteredNodes rf tf q ++ filteredUserNodes rf tf q userNodes) ∧
    allAreas userAreas = AREAS ++ userAreas := by
  refine ⟨?_, ?_, rfl⟩
  · intro h
    simp [nodesForFit, h]
  · intro h
    have hlen : (filteredNodes rf tf q ++ filteredUserNodes rf tf q userNodes).length ≠ 0 := by
      simpa [List.length_eq_zero] using h
    simp only [nodesForFit]
    rw [if_pos hlen]

/-- Witness for C8: with all risk checkboxes off the fallback node list is
used. -/
theorem nodesForFit_spec_witness :
    nodesForFit (fun _ => false) (fun _ => true) "" [] = NODES ++ [] :=
  (nodesForFit_spec (fun _ => false) (fun _ => true) "" [] []).1 (by decide)

/-- C9: an add-note action (map click or context-menu item) with a null,
empty or whitespace-only prompt leaves the state unchanged; otherwise
exactly one note is appended, carrying the trimmed text, the clicked
coordinate, the generated id and the creation timestamp. -/
theorem addNote_spec (tp : Option String) (la ln : ℚ) (uuid : String) (now : Int)
    (s : MapState) :
    ((tp = none ∨ ∃ t, tp = some t ∧ jsTrim t = "") →
        step (.addNoteClick tp la ln uuid now) s = s ∧
        step (.addNoteMenu tp la ln uuid now) s = s) ∧
    (∀ t, tp = some t → jsTrim t ≠ "" →
        (step (.addNoteClick tp la ln uuid now) s).notes =
          s.notes ++ [{ id := uuid, lat := la, lng := ln, text := jsTrim t, ts := now }] ∧
        (step (.addNoteMenu tp la ln uuid now) s).notes =
          s.notes ++ [{ id := uuid, lat := la, lng := ln, text := jsTrim t, ts := now }]) := by
  constructor
  · rintro (rfl | ⟨t, rfl, ht⟩)
    · exact ⟨rfl, rfl⟩
    · by_cases h0 : t = ""
      · constructor <;> simp [step, addNoteHandler, h0]
      · constructor <;> simp [step, addNoteHandler, h0, ht]
  · intro t ht hne
    subst ht
    have h0 : t ≠ "" := by
      intro h
      exact hne (by simp [h]; rfl)
    constructor <;> simp [step, addNoteHandler, h0, hne]

/-- Witness for C9: a nonblank prompt appends exactly the trimmed note. -/
theorem addNote_spec_witness :
    (step (.addNoteClick (some " hello  ") 1 2 "note-1" 42) demoState).notes =
      demoState.notes ++ [{ id := "note-1", lat := 1, lng := 2, text := jsTrim " hello  ", ts := 42 }] ∧
    (step (.addNoteMenu (some " hello  ") 1 2 "note-1" 42) demoState).notes =
      demoState.notes ++ [{ id := "note-1", lat := 1, lng := 2, text := jsTrim " hello  ", ts := 42 }] :=
  (addNote_spec (some " hello  ") 1 2 "note-1" 42 demoState).2 " hello  " rfl (by decide)

/-- C10: prompted risk strings are matched case-insensitively against the
risk names; for a checkpoint, inputs outside the four-name enumeration
default to Watch, for a danger flag inputs outside Watch, Warning, Evacuate
default to Warning, and a danger flag risk is never Info. -/
theorem risk_input_normalization (input : Option String) :
    normCheckpointRisk input = specCheckpointRisk input ∧
    normFlagRisk input = specFlagRisk input ∧
    (normFlagRisk input = .Watch ∨ normFlagRisk input = .Warning ∨
      normFlagRisk input = .Evacuate) := by
  have hmain : normCheckpointRisk input = specCheckpointRisk input ∧
      normFlagRisk input = specFlagRisk input := by
    cases input with
    | none => exact ⟨by decide, by decide⟩
    | some s =>
      by_cases hs : s = ""
      · subst hs
        exact ⟨by decide, by decide⟩
      · have h1 := capFirst_jsToLower_eq_iff s 'i' 'I' ['n','f','o']
          (by decide) (by decide) (by decide)
        have h2 := capFirst_jsToLower_eq_iff s 'w' 'W' ['a','t','c','h']
          (by decide) (by decide) (by decide)
        have h3 := capFirst_jsToLower_eq_iff s 'w' 'W' ['a','r','n','i','n','g']
          (by decide) (by decide) (by decide)
        have h4 := capFirst_jsToLower_eq_iff s 'e' 'E' ['v','a','c','u','a','t','e']
          (by decide) (by decide) (by decide)
        constructor
        · simp only [normCheckpointRisk, specCheckpointRisk, jsOrString, if_neg hs]
          rw [show ("Info" : String) = String.mk ['I','n','f','o'] from rfl,
              show ("Watch" : String) = String.mk ['W','a','t','c','h'] from rfl,
              show ("Warning" : String) = String.mk ['W','a','r','n','i','n','g'] from rfl,
              show ("Evacuate" : String) = String.mk ['E','v','a','c','u','a','t','e'] from rfl,
              show ("info" : String) = String.mk ['i','n','f','o'] from rfl,
              show ("watch" : String) = String.mk ['w','a','t','c','h'] from rfl,
              show ("warning" : String) = String.mk ['w','a','r','n','i','n','g'] from rfl,
              show ("evacuate" : String) = String.mk ['e','v','a','c','u','a','t','e'] from rfl]
          simp only [h1, h2, h3, h4]
        · simp only [normFlagRisk, specFlagRisk, jsOrString, if_neg hs]
          rw [show ("Watch" : String) = String.mk ['W','a','t','c','h'] from rfl,
              show ("Warning" : String) = String.mk ['W','a','r','n','i','n','g'] from rfl,
              show ("Evacuate" : String) = String.mk ['E','v','a','c','u','a','t','e'] from rfl,
              show ("watch" : String) = String.mk ['w','a','t','c','h'] from rfl,
              show ("warning" : String) = String.mk ['w','a','r','n','i','n','g'] from rfl,
              show ("evacuate" : String) = String.mk ['e','v','a','c','u','a','t','e'] from rfl]
          simp only [h2, h3, h4]
  refine ⟨hmain.1, hmain.2, ?_⟩
  rw [hmain.2]
  cases input with
  | none => exact Or.inr (Or.inl rfl)
  | some s =>
    simp only [specFlagRisk]
    split
    · exact Or.inl rfl
    · split
      · exact Or.inr (Or.inl rfl)
      · split
        · exact Or.inr (Or.inr rfl)
        · exact Or.inr (Or.inl rfl)

end LandSlides
